import Mathlib

/-!
Shallow embedding of `src/queue-processor.ts` (JSONL log-tailing version) of
the tinyclaw repository, together with theorems settling the frozen claims
about its turn-completion engine, interaction extractor, reply encoder,
log-shard locator and queue coordinator.

Modelling conventions:
* One JSONL line is a `Line`: `blank` (whitespace-only raw line), `malformed`
  (nonblank but `JSON.parse` throws), or `entry e` for a parsed record.
* A parsed record keeps exactly the fields the code reads: `type`, `subtype`,
  `message.content` (as an optional list of blocks; `none` models both a
  missing `message`/`content` and a non-array value) and `slug`.
* The log directory is an association list from file path to raw lines; the
  pre-dispatch snapshot is an association list from path to line count,
  mirroring the `Map<string, number>` built by `snapshotJsonlFiles`.
* Times are naturals (milliseconds); `Date.now()` readings inside one timer
  callback are modelled as a single `now`.
* The `-1` sentinel returned by `findInteractionIndex` is modelled as
  `Option Nat` (`none` for `-1`).
* tmux `send-keys` / `sleep` calls are modelled as a list of `KeyEvent`s,
  the input-injection channel of the spec.
-/

namespace Tinyclaw

/-- ASCII whitespace, the relevant part of the character class JavaScript's
`trim()` and `parseInt` skip. -/
def jsWhitespace (c : Char) : Bool :=
  decide (c = ' ' ∨ c = '\t' ∨ c = '\n' ∨ c = '\r')

/-- JavaScript `trim()` on a character list. -/
def trimChars (cs : List Char) : List Char :=
  ((cs.dropWhile jsWhitespace).reverse.dropWhile jsWhitespace).reverse

/-- JavaScript `s.trim()` (structural, so the kernel can evaluate it). -/
def jsTrim (s : String) : String :=
  ⟨trimChars s.data⟩

/-- Splitting on `','`, accumulator-style: JavaScript `s.split(',')`
(so `''.split(',')` is `['']`). -/
def splitCommaChars (acc : List Char) : List Char → List String
  | [] => [⟨acc.reverse⟩]
  | c :: rest =>
    if c = ',' then ⟨acc.reverse⟩ :: splitCommaChars [] rest
    else splitCommaChars (c :: acc) rest

/-- JavaScript `s.split(',')`. -/
def jsSplitComma (s : String) : List String :=
  splitCommaChars [] s.data

/-- JavaScript `s.toLowerCase()` (ASCII case folding, which is all the
approval words need). -/
def jsToLower (s : String) : String :=
  ⟨s.data.map Char.toLower⟩

/-- JavaScript `s.endsWith(suffix)`. -/
def endsWithStr (suffix s : String) : Bool :=
  suffix.data.isSuffixOf s.data

/-- Timeout constant `RESPONSE_TIMEOUT` (ms) from the source. -/
def RESPONSE_TIMEOUT : Nat := 10800000

/-- Quiet threshold `INTERACTION_QUIET_THRESHOLD` (ms) from the source. -/
def INTERACTION_QUIET_THRESHOLD : Nat := 5000

/-- One multiple-choice option, as in interface `QuestionOption`. -/
structure QuestionOption where
  label : String
  description : String
deriving DecidableEq, Repr

/-- One question of an `AskUserQuestion` invocation, as in `QuestionEntry`. -/
structure QuestionEntry where
  question : String
  options : List QuestionOption
  header : Option String := none
deriving DecidableEq, Repr

/-- A content block of a log entry: free text, a tool invocation (for
`AskUserQuestion` the code reads `input.questions`, carried here in the
constructor), a tool result, or anything else. -/
inductive Block where
  | text (s : String)
  | toolUse (name : String) (questions : List QuestionEntry)
  | toolResult
  | other
deriving DecidableEq, Repr

/-- A parsed JSONL record, restricted to the fields the code reads.
`content` models `entry.message?.content`; `none` stands for a missing
message/content (or a non-array value). -/
structure Entry where
  type : String
  subtype : Option String := none
  content : Option (List Block) := none
  slug : Option String := none
deriving DecidableEq, Repr

/-- One raw line of a JSONL shard. -/
inductive Line where
  | blank
  | malformed
  | entry (e : Entry)
deriving DecidableEq, Repr

/-- Whether a raw line is whitespace-only (`line.trim().length === 0`). -/
def Line.isBlank : Line → Bool
  | .blank => true
  | _ => false

/-- The log-shard directory: association list path ↦ raw lines. -/
def Dir := List (String × List Line)

/-- The pre-dispatch snapshot: association list path ↦ line count,
as built by `snapshotJsonlFiles`. -/
def Snapshot := List (String × Nat)

/-- The plan-document side channel: association list slug ↦ file content
(the file `PLANS_DIR/slug.md`). -/
def Plans := List (String × String)

/-- The nonblank lines of a raw file, matching
`content.split('\n').filter(line => line.trim().length > 0)`. -/
def nonBlank (ls : List Line) : List Line :=
  ls.filter (fun l => !l.isBlank)

/-- Source `getFileLineCount`: number of nonblank lines of the file at `p`;
a missing file (or read error) counts as 0. -/
def getFileLineCount (d : Dir) (p : String) : Nat :=
  match List.lookup p d with
  | some ls => (nonBlank ls).length
  | none => 0

/-- Source `readNewLines`: the nonblank lines of the file at `p` after line
`afterLine`; a missing file yields `[]`. -/
def readNewLines (d : Dir) (p : String) (afterLine : Nat) : List Line :=
  match List.lookup p d with
  | some ls => (nonBlank ls).drop afterLine
  | none => []

/-- The `.jsonl` entries of a directory listing, in listing order. -/
def jsonlFiles (d : Dir) : List (String × List Line) :=
  d.filter (fun e => endsWithStr ".jsonl" e.1)

/-- Source `snapshotJsonlFiles`: line counts of every `.jsonl` file. -/
def snapshotJsonlFiles (d : Dir) : Snapshot :=
  (jsonlFiles d).map (fun e => (e.1, (nonBlank e.2).length))

/-- First loop of `detectActiveJsonlFile`: did the file at `e.1` grow past
its snapshotted count (absent files default to 0 via `?? 0`)? -/
def grewB (before : Snapshot) (d : Dir) (e : String × List Line) : Bool :=
  decide ((List.lookup e.1 before).getD 0 < getFileLineCount d e.1)

/-- Second loop of `detectActiveJsonlFile`: is the file absent from the
snapshot (`!before.has(filePath)`)? -/
def isNewB (before : Snapshot) (e : String × List Line) : Bool :=
  (List.lookup e.1 before).isNone

/-- Source `detectActiveJsonlFile`: the first `.jsonl` file whose current count
exceeds its snapshotted count, with offset the snapshotted count; otherwise
the first `.jsonl` file absent from the snapshot, with offset 0. -/
def detectActiveJsonlFile (before : Snapshot) (d : Dir) : Option (String × Nat) :=
  match (jsonlFiles d).find? (grewB before d) with
  | some e => some (e.1, (List.lookup e.1 before).getD 0)
  | none =>
    match (jsonlFiles d).find? (isNewB before) with
    | some e => some (e.1, 0)
    | none => none

/-- Is this line a `system` entry with subtype `turn_duration`?
(Blank and malformed lines are skipped by the `catch`.) -/
def isTurnDurationLine (l : Line) : Bool :=
  match l with
  | .entry e => decide (e.type = "system" ∧ e.subtype = some "turn_duration")
  | _ => false

/-- Source `hasTurnEnded`: some new line is a `system` entry with subtype
`turn_duration`. (The source scans backward; existence is order-independent.) -/
def hasTurnEnded (newLines : List Line) : Bool :=
  newLines.any isTurnDurationLine

/-- Backward walk of `lastEntryIsSystemBoundary`, operating on the reversed
line list: blank lines are skipped, the first nonblank line decides —
`false` if it is malformed (the loop `break`s after the failed parse). -/
def lastBoundaryGo : List Line → Bool
  | [] => false
  | .blank :: rest => lastBoundaryGo rest
  | .malformed :: _ => false
  | .entry e :: _ => decide (e.type = "system" ∧ e.subtype = some "stop_hook_summary")

/-- Source `lastEntryIsSystemBoundary`: the most recent nonblank new line is a
`system` entry with subtype `stop_hook_summary`. -/
def lastEntryIsSystemBoundary (newLines : List Line) : Bool :=
  lastBoundaryGo newLines.reverse

/-- The nonempty trimmed text blocks of an assistant entry's content,
matching `content.filter(b => b.type === 'text' && b.text?.trim()).map(b => b.text.trim())`. -/
def textBlocksOf (bs : List Block) : List String :=
  bs.filterMap (fun b =>
    match b with
    | .text s => if jsTrim s = "" then none else some (jsTrim s)
    | _ => none)

/-- Source `textBlocks.join('\n\n')`. -/
def joinBlocks : List String → String
  | [] => ""
  | [s] => s
  | s :: rest => s ++ "\n\n" ++ joinBlocks rest

/-- Backward walk of `extractLastAssistantText` on the reversed line list:
the first assistant entry whose content has a nonempty text block yields the
blank-line-joined text; assistant entries without such a block, other
entries, blank and malformed lines are skipped. -/
def extractGo : List Line → Option String
  | [] => none
  | .entry e :: rest =>
    if e.type = "assistant" then
      match e.content with
      | some bs =>
        if textBlocksOf bs = [] then extractGo rest
        else some (joinBlocks (textBlocksOf bs))
      | none => extractGo rest
    else extractGo rest
  | _ :: rest => extractGo rest

/-- Source `extractLastAssistantText`. -/
def extractLastAssistantText (newLines : List Line) : Option String :=
  extractGo newLines.reverse

/-- Source `extractSlug`: the first (forward) line with a truthy `slug` field. -/
def extractSlug (newLines : List Line) : Option String :=
  newLines.findSome? (fun l =>
    match l with
    | .entry e =>
      match e.slug with
      | some s => if s = "" then none else some s
      | none => none
    | _ => none)

/-- Kind discriminant of a `PendingInteraction` (`'question' | 'plan'`). -/
inductive IType where
  | question
  | plan
deriving DecidableEq, Repr

/-- Interface `PendingInteraction`. -/
structure PendingInteraction where
  type : IType
  questions : Option (List QuestionEntry) := none
  contextText : Option String := none
  planContent : Option String := none
deriving DecidableEq, Repr

/-- Plan-content lookup of the `ExitPlanMode` branch: read and trim
`PLANS_DIR/slug.md`; an empty or unreadable document yields `none`
(`planContent || undefined`). -/
def planContentFor (plans : Plans) (newLines : List Line) : Option String :=
  match extractSlug newLines with
  | some sl =>
    match List.lookup sl plans with
    | some content => if jsTrim content = "" then none else some (jsTrim content)
    | none => none
  | none => none

/-- Block scan of `checkForPendingInteraction` inside the last assistant
entry: the first `tool_use` block that is an `AskUserQuestion` with a
nonempty question list, or an `ExitPlanMode`, decides. -/
def interactionOfBlocks (plans : Plans) (newLines : List Line) (e : Entry)
    (bs : List Block) : Option PendingInteraction :=
  bs.findSome? (fun b =>
    match b with
    | .toolUse "AskUserQuestion" qs =>
      if qs = [] then none
      else
        some { type := .question
               questions := some qs
               contextText :=
                 if textBlocksOf (e.content.getD []) = [] then none
                 else some (joinBlocks (textBlocksOf (e.content.getD []))) }
    | .toolUse "ExitPlanMode" _ =>
      some { type := .plan, planContent := planContentFor plans newLines }
    | _ => none)

/-- Backward walk of `checkForPendingInteraction` on the reversed line list:
non-assistant, blank and malformed lines are skipped; the first assistant
entry decides (the loop `break`s after it). -/
def checkGo (plans : Plans) (newLines : List Line) : List Line → Option PendingInteraction
  | [] => none
  | .entry e :: rest =>
    if e.type = "assistant" then interactionOfBlocks plans newLines e (e.content.getD [])
    else checkGo plans newLines rest
  | _ :: rest => checkGo plans newLines rest

/-- Source `checkForPendingInteraction`. -/
def checkForPendingInteraction (plans : Plans) (newLines : List Line) :
    Option PendingInteraction :=
  checkGo plans newLines newLines.reverse

/-- Is this line an assistant entry with an `AskUserQuestion` or
`ExitPlanMode` `tool_use` block? -/
def isInteractionLine (l : Line) : Bool :=
  match l with
  | .entry e =>
    decide (e.type = "assistant") &&
      (e.content.getD []).any (fun b =>
        match b with
        | .toolUse n _ => decide (n = "AskUserQuestion" ∨ n = "ExitPlanMode")
        | _ => false)
  | _ => false

/-- Source `findInteractionIndex`: the index of the last such line
(`none` models the `-1` sentinel). -/
def findInteractionIndex (newLines : List Line) : Option Nat :=
  ((newLines.enum.filter (fun p => isInteractionLine p.2)).map Prod.fst).getLast?

/-- Is this line a `user` entry whose content array contains a
`tool_result` block? -/
def isUserToolResultLine (l : Line) : Bool :=
  match l with
  | .entry e =>
    decide (e.type = "user") &&
      (e.content.getD []).any (fun b =>
        match b with
        | .toolResult => true
        | _ => false)
  | _ => false

/-- Source `hasToolResult`: some line strictly after index `afterIndex` is a
`user` entry carrying a `tool_result` block. -/
def hasToolResult (newLines : List Line) (afterIndex : Nat) : Bool :=
  (newLines.drop (afterIndex + 1)).any isUserToolResultLine

/-- Per-option lines of `formatInteractionForDiscord`. -/
def formatOptions (opts : List QuestionOption) : String :=
  String.join (opts.enum.map (fun op =>
    "**" ++ toString (op.1 + 1) ++ ".** " ++ op.2.label ++ " — " ++ op.2.description ++ "\n"))

/-- Per-question paragraphs of `formatInteractionForDiscord`. -/
def formatQuestions (multi : Bool) (qs : List QuestionEntry) : String :=
  String.join (qs.enum.map (fun p =>
    (if multi then "**Q" ++ toString (p.1 + 1) ++ ":** " else "**Claude is asking:** ")
      ++ p.2.question ++ "\n\n" ++ formatOptions p.2.options ++ "\n"))

/-- Source `formatInteractionForDiscord`: render a pending interaction as the
human-readable prompt string sent back to the chat platform. -/
def formatInteractionForDiscord (i : PendingInteraction) : String :=
  match i.type, i.questions with
  | .question, some (q0 :: qrest) =>
    (match i.contextText with
      | some c => c ++ "\n\n---\n"
      | none => "")
    ++ formatQuestions (decide ((q0 :: qrest).length > 1)) (q0 :: qrest)
    ++ "---\n"
    ++ (if (q0 :: qrest).length > 1 then
          "Reply with answers separated by commas (e.g. **1, 2, 3**)\n"
            ++ "Each position = one question. Use a number to pick an option or text for a custom answer."
        else
          "**1-" ++ toString q0.options.length
            ++ "** → select that option\n**anything else** → sent as custom answer")
  | .plan, _ =>
    "**Claude has a plan ready for approval:**\n\n"
      ++ (match i.planContent with
          | some p => p
          | none => "(Could not read plan file)")
      ++ "\n\n---\n**yes** / **approve** → execute this plan\n"
      ++ "**anything else** → sent as feedback, Claude will revise the plan"
  | _, _ => "(Claude is waiting for input — check tmux session)"

/-!  The Turn Waiter (`waitForResponse`): each timer callback is one `tick`
over an explicit `WaitState`, with `Date.now()` modelled as `now` and the
promise start time as `startTime`. -/

/-- Per-turn mutable state of the `waitForResponse` closure. -/
structure WaitState where
  activeFile : Option String
  startLine : Nat
  lastLineCount : Nat
  lastGrowthAt : Nat
deriving DecidableEq, Repr

/-- Outcome of one timer callback: keep polling, or resolve the promise
with a response string — recording, for an interaction resolution, the
value stored into the module-level `pendingInteraction` slot. -/
inductive TickResult where
  | continueWait (s : WaitState)
  | resolved (response : String) (interaction : Option PendingInteraction)
deriving DecidableEq, Repr

/-- The pending interaction surfaced by a tick (`none` for every other
outcome, matching the untouched module slot). -/
def TickResult.surfaced : TickResult → Option PendingInteraction
  | .continueWait _ => none
  | .resolved _ i => i

/-- Phase-2 growth bookkeeping: if the active file's count grew, record the
new count and stamp `lastGrowthAt := now`. -/
def growthUpdate (d : Dir) (now : Nat) (f : String) (s : WaitState) : WaitState :=
  if s.lastLineCount < getFileLineCount d f then
    { s with lastLineCount := getFileLineCount d f, lastGrowthAt := now }
  else s

/-- One step of the rotation scan: a `.jsonl` file other than the current
active one, absent from the pre-dispatch snapshot and nonempty, becomes the
new active file with offset 0. -/
def rotationStep (before : Snapshot) (d : Dir) (now : Nat)
    (acc : String × WaitState) (e : String × List Line) : String × WaitState :=
  if e.1 = acc.1 then acc
  else if (List.lookup e.1 before).isNone ∧ 0 < getFileLineCount d e.1 then
    (e.1, { activeFile := some e.1, startLine := 0,
            lastLineCount := getFileLineCount d e.1, lastGrowthAt := now })
  else acc

/-- The rotation scan over the whole listing (the source's `for` loop over
`readdirSync`, threading the mutable `activeFile`). -/
def rotationUpdate (before : Snapshot) (d : Dir) (now : Nat)
    (f : String) (s : WaitState) : String × WaitState :=
  (jsonlFiles d).foldl (rotationStep before d now) (f, s)

/-- Active file and state after the growth and rotation phases of one tick. -/
def stateAfter (before : Snapshot) (d : Dir) (now : Nat)
    (f : String) (s : WaitState) : String × WaitState :=
  rotationUpdate before d now f (growthUpdate d now f s)

/-- The new-entry window `readNewLines(activeFile, startLine)` of one tick,
read from the post-rotation active file. -/
def newLinesAfter (before : Snapshot) (d : Dir) (now : Nat)
    (f : String) (s : WaitState) : List Line :=
  readNewLines d (stateAfter before d now f s).1 (stateAfter before d now f s).2.startLine

/-- Placeholder when the turn ended but no assistant text exists. -/
def noTextResp : String :=
  "(Claude completed work but produced no text response — check tmux session)"

/-- Placeholder on timeout with an active file but no assistant text. -/
def timeoutActiveResp : String := "(Response timed out — check tmux session)"

/-- Placeholder on timeout before any JSONL activity was detected. -/
def timeoutNoActivityResp : String := "(Response timed out — no JSONL activity detected)"

/-- The `stop_hook_summary` fallback: resolve with the last assistant text
only when the boundary entry is last _and_ such text exists. -/
def boundaryResolve (nl : List Line) : Option (String × Option PendingInteraction) :=
  if lastEntryIsSystemBoundary nl then
    match extractLastAssistantText nl with
    | some t => some (t, none)
    | none => none
  else none

/-- The quiet-gated checks of one tick: once the window is nonempty and
quiet for at least the threshold, try interaction detection first, then the
`stop_hook_summary` fallback. -/
def quietChecks (plans : Plans) (now : Nat) (s : WaitState) (nl : List Line) :
    Option (String × Option PendingInteraction) :=
  if 0 < s.lastGrowthAt ∧ nl ≠ [] ∧ INTERACTION_QUIET_THRESHOLD ≤ now - s.lastGrowthAt then
    match findInteractionIndex nl with
    | some idx =>
      if hasToolResult nl idx then boundaryResolve nl
      else
        match checkForPendingInteraction plans nl with
        | some i => some (formatInteractionForDiscord i, some i)
        | none => boundaryResolve nl
    | none => boundaryResolve nl
  else none

/-- Phase 2 of one tick, once an active file `f` is known: growth and
rotation bookkeeping, then the tiered checks (authoritative `turn_duration`
marker, quiet-gated interaction / weak boundary, timeout). -/
def tickActive (before : Snapshot) (plans : Plans) (d : Dir)
    (now startTime : Nat) (f : String) (s : WaitState) : TickResult :=
  if hasTurnEnded (newLinesAfter before d now f s) then
    .resolved
      ((extractLastAssistantText (newLinesAfter before d now f s)).getD noTextResp) none
  else
    match quietChecks plans now (stateAfter before d now f s).2
        (newLinesAfter before d now f s) with
    | some ri => .resolved ri.1 ri.2
    | none =>
      if RESPONSE_TIMEOUT < now - startTime then
        .resolved
          ((extractLastAssistantText (newLinesAfter before d now f s)).getD
            timeoutActiveResp) none
      else .continueWait (stateAfter before d now f s).2

/-- One timer callback of `waitForResponse`: detect the active file if still
unknown (phase 1), then run phase 2, or check the timeout when no file has
been detected yet. -/
def tick (before : Snapshot) (plans : Plans) (d : Dir)
    (now startTime : Nat) (s : WaitState) : TickResult :=
  match s.activeFile with
  | some f => tickActive before plans d now startTime f s
  | none =>
    match detectActiveJsonlFile before d with
    | some fl =>
      tickActive before plans d now startTime fl.1
        { activeFile := some fl.1, startLine := fl.2,
          lastLineCount := getFileLineCount d fl.1, lastGrowthAt := now }
    | none =>
      if RESPONSE_TIMEOUT < now - startTime then .resolved timeoutNoActivityResp none
      else .continueWait s

/-!  The Reply Encoder (`sendInteractionKeystroke`): the tmux `send-keys`
and `sleep` calls are modelled as a list of discrete injection events. -/

/-- One discrete injection event: a symbolic key, literal text
(`send-keys -l`), or a fixed delay (`sleep`, in milliseconds). -/
inductive KeyEvent where
  | down
  | tab
  | enter
  | text (s : String)
  | sleep (ms : Nat)
deriving DecidableEq, Repr

/-- Decimal digit parsing of `parseInt(s, 10)` after sign handling:
`none` when no leading digit exists (`NaN`). -/
def digitsVal (cs : List Char) : Option Nat :=
  match cs.takeWhile Char.isDigit with
  | [] => none
  | ds => some (ds.foldl (fun acc c => acc * 10 + (c.toNat - '0'.toNat)) 0)

/-- JavaScript `parseInt(s, 10)`: skip leading whitespace, read an optional
sign, then the longest digit run; `none` models `NaN`. -/
def parseIntJS (s : String) : Option Int :=
  match s.data.dropWhile jsWhitespace with
  | '-' :: rest => (digitsVal rest).map (fun n => -(n : Int))
  | '+' :: rest => (digitsVal rest).map (fun n => (n : Int))
  | rest => (digitsVal rest).map (fun n => (n : Int))

/-- Answer token for question `qi`: `answers[qi] || answers[0]`
(an out-of-range or empty token falls back to the first token). -/
def answerFor (answers : List String) (qi : Nat) : String :=
  if answers.getD qi "" = "" then answers.headD "" else answers.getD qi ""

/-- The `Other` path of one question: move past every option, confirm the
free-form option, pause, then type the literal token text. -/
def otherPart (q : QuestionEntry) (answer : String) : List KeyEvent :=
  List.replicate q.options.length .down ++ [.enter, .sleep 300, .text answer]

/-- Events of one question: a `Tab` (plus delay) to reach the next question
group when it is not the first, then either `optionNum - 1` down-moves for
an in-range numeric token, or the `Other` path. -/
def questionPart (answers : List String) (p : Nat × QuestionEntry) : List KeyEvent :=
  let answer := answerFor answers p.1
  (if p.1 > 0 then [KeyEvent.tab, KeyEvent.sleep 100] else [])
    ++ match parseIntJS answer with
       | some n =>
         if 1 ≤ n ∧ n ≤ (p.2.options.length : Int) then
           List.replicate (n.toNat - 1) KeyEvent.down
         else otherPart p.2 answer
       | none => otherPart p.2 answer

/-- Question branch of `sendInteractionKeystroke`: comma-split the reply
into per-question tokens, encode each question, then one final `Enter`
submits the whole form. -/
def questionKeystrokes (qs : List QuestionEntry) (reply : String) : List KeyEvent :=
  let answers := (jsSplitComma reply).map jsTrim
  (qs.enum.map (questionPart answers)).flatten ++ [.enter]

/-- The affirmative-word test `/^(y|yes|approve|accept|ok|go|lgtm)$/i`. -/
def isApproval (reply : String) : Bool :=
  ["y", "yes", "approve", "accept", "ok", "go", "lgtm"].contains (jsToLower reply)

/-- Plan branch of `sendInteractionKeystroke`: an affirmative reply selects
option 2 (`Down`, `Enter` — deliberately not the context-clearing default
option 1); anything else selects option 4 (`Down` ×3, `Enter`), pauses,
types the reply as feedback and submits it. -/
def planKeystrokes (reply : String) : List KeyEvent :=
  if isApproval reply then [.down, .enter]
  else [.down, .down, .down, .enter, .sleep 300, .text reply, .sleep 200, .enter]

/-- Source `sendInteractionKeystroke`: the full injection-event sequence for a
stored pending interaction and the next human reply (trimmed first). -/
def sendInteractionKeystroke (i : PendingInteraction) (userReply : String) : List KeyEvent :=
  match i.type, i.questions with
  | .question, some qs =>
    if qs.length > 0 then questionKeystrokes qs (jsTrim userReply) else []
  | .question, none => []
  | .plan, _ => planKeystrokes (jsTrim userReply)

/-!  The Queue Coordinator (`processMessage`): the on-disk queue areas and
the module-level `pendingInteraction` slot are explicit state; the points
at which the `try` block can throw are an explicit `FailPoint` oracle, and
the `catch` handler's restoration is part of the definition. -/

/-- Where (if anywhere) the `try` block of `processMessage` throws. -/
inductive FailPoint where
  | noFail
  | atRename
  | atRead
  | atDispatch
  | atWait
  | atWrite
deriving DecidableEq, Repr

/-- How the message was delivered to the agent. -/
inductive DispatchMode where
  | interactionReply
  | freshPrompt
deriving DecidableEq, Repr

/-- Coordinator-visible state: the three queue areas (message file names,
outgoing as artifact name ↦ response text) and the single process-wide
pending-interaction slot. -/
structure CoordState where
  incoming : List String
  processing : List String
  outgoing : List (String × String)
  pending : Option PendingInteraction
deriving DecidableEq, Repr

/-- Result of one `processMessage` call: the state after it returns, the
dispatch mode that completed (if the send step was reached and finished),
and whether an exception was caught. -/
structure ProcOutcome where
  state : CoordState
  dispatched : Option DispatchMode
  threw : Bool
deriving DecidableEq, Repr

/-- The `catch` handler's restoration: the in-progress representation is
relocated back to the holding area for retry. -/
def restoreToIncoming (msgFile : String) (st : CoordState) : CoordState :=
  { st with processing := st.processing.erase msgFile,
            incoming := st.incoming ++ [msgFile] }

/-- Source `processMessage` for one message file: relocate holding → in-progress,
read the message, clear-and-consume the pending-interaction slot (reply
injection) or send a fresh prompt, wait for `waitResult`, write the
response artifact and delete the in-progress file; any throw after the
relocation is caught and undone by `restoreToIncoming`; a throw during the
relocation itself leaves everything in place (the `existsSync` guard finds
no in-progress file). -/
def processMessage (fp : FailPoint) (waitResult : String)
    (msgFile artifact : String) (st : CoordState) : ProcOutcome :=
  if fp = .atRename then
    { state := st, dispatched := none, threw := true }
  else
    let st1 : CoordState :=
      { st with incoming := st.incoming.erase msgFile,
                processing := st.processing ++ [msgFile] }
    if fp = .atRead then
      { state := restoreToIncoming msgFile st1, dispatched := none, threw := true }
    else
      let mode : DispatchMode :=
        match st1.pending with
        | some _ => .interactionReply
        | none => .freshPrompt
      let st2 : CoordState := { st1 with pending := none }
      if fp = .atDispatch then
        { state := restoreToIncoming msgFile st2, dispatched := none, threw := true }
      else if fp = .atWait then
        { state := restoreToIncoming msgFile st2, dispatched := some mode, threw := true }
      else if fp = .atWrite then
        { state := restoreToIncoming msgFile st2, dispatched := some mode, threw := true }
      else
        { state := { st2 with outgoing := st2.outgoing ++ [(artifact, waitResult)],
                              processing := st2.processing.erase msgFile },
          dispatched := some mode, threw := false }

/-!  Example data shared by the witness and counterexample theorems. -/

/-- A two-option question. -/
def exQuestion1 : QuestionEntry :=
  { question := "q1", options := [⟨"a", "A"⟩, ⟨"b", "B"⟩] }

/-- Another two-option question. -/
def exQuestion2 : QuestionEntry :=
  { question := "q2", options := [⟨"c", "C"⟩, ⟨"d", "D"⟩] }

/-- A pending question interaction with two questions. -/
def exTwoQuestionInteraction : PendingInteraction :=
  { type := .question, questions := some [exQuestion1, exQuestion2] }

/-- A pending plan interaction. -/
def exPlanInteraction : PendingInteraction := { type := .plan }

/-!  Claim C6 — plan reply encoding. -/

/-- C6: for a pending plan interaction, a reply matching the affirmative-word
test is encoded as the non-default acceptance choice (`Down` then `Enter`,
i.e. option 2) and never as the interface's context-discarding default
acceptance path (confirming at the default cursor position, which would make
`Enter` the first event); any other reply is encoded as the provide-feedback
choice (`Down` ×3) followed by confirmation and the literal reply text. -/
theorem plan_reply_encoding (i : PendingInteraction) (userReply : String)
    (hp : i.type = IType.plan) :
    (isApproval (jsTrim userReply) = true →
      sendInteractionKeystroke i userReply = [KeyEvent.down, KeyEvent.enter] ∧
      (sendInteractionKeystroke i userReply).head? ≠ some KeyEvent.enter) ∧
    (isApproval (jsTrim userReply) = false →
      sendInteractionKeystroke i userReply =
        [KeyEvent.down, KeyEvent.down, KeyEvent.down, KeyEvent.enter,
         KeyEvent.sleep 300, KeyEvent.text (jsTrim userReply), KeyEvent.sleep 200,
         KeyEvent.enter]) := by
  obtain ⟨t, qs, c, pc⟩ := i
  simp only at hp
  subst hp
  cases qs <;>
    constructor <;> intro h <;>
      simp [sendInteractionKeystroke, planKeystrokes, h]

/-- Witness for C6 at the concrete reply `"yes"`. -/
theorem plan_reply_encoding_witness :
    sendInteractionKeystroke exPlanInteraction "yes" = [KeyEvent.down, KeyEvent.enter] :=
  ((plan_reply_encoding exPlanInteraction "yes" rfl).1 (by decide)).1

/-!  Claim C5 — question reply encoding for reply `"2,1"`. -/

/-- C5 counterexample: for the two-question interaction and reply `"2,1"`
the produced event sequence is `[Down, Tab, delay, Enter]`; the segment
encoding question 1 (everything before the move-to-next-question `Tab`)
contains no confirmation event, refuting the claim that each in-range
numeric token is encoded by moves followed by confirmation. -/
theorem question_reply_per_token_confirmation_counterexample :
    sendInteractionKeystroke exTwoQuestionInteraction "2,1" =
      [KeyEvent.down, KeyEvent.tab, KeyEvent.sleep 100, KeyEvent.enter] ∧
    ((sendInteractionKeystroke exTwoQuestionInteraction "2,1").takeWhile
        (fun e => decide (e ≠ KeyEvent.tab))).count KeyEvent.enter = 0 := by
  decide

/-- C5 amended: for a pending question interaction with two questions and
the reply `"2,1"` (option 2 resp. option 1 being in range), question 1 is
encoded as one down-move from the default cursor position, a
move-to-next-question-group `Tab` (plus fixed delay) separates the
questions, question 2 is encoded as zero moves, and exactly one final
submit `Enter` follows all questions; in-range numeric tokens are encoded
by `optionNum - 1` moves only, the single final `Enter` being the only
confirmation. -/
theorem question_reply_encoding_amended (i : PendingInteraction)
    (q1 q2 : QuestionEntry) (ht : i.type = IType.question)
    (hqs : i.questions = some [q1, q2])
    (h1 : 2 ≤ q1.options.length) (h2 : 1 ≤ q2.options.length) :
    sendInteractionKeystroke i "2,1" =
      [KeyEvent.down, KeyEvent.tab, KeyEvent.sleep 100, KeyEvent.enter] := by
  obtain ⟨t, qs, c, pc⟩ := i
  simp only at ht hqs
  subst ht
  subst hqs
  have e1 : questionPart ["2", "1"] (0, q1) = [KeyEvent.down] := by
    have hpi : parseIntJS (answerFor ["2", "1"] 0) = some 2 := rfl
    have hc1 : (1 : Int) ≤ 2 ∧ (2 : Int) ≤ (q1.options.length : Int) :=
      ⟨by norm_num, by exact_mod_cast h1⟩
    simp [questionPart, hpi, hc1]
  have e2 : questionPart ["2", "1"] (1, q2) = [KeyEvent.tab, KeyEvent.sleep 100] := by
    have hpi : parseIntJS (answerFor ["2", "1"] 1) = some 1 := rfl
    have hc2 : (1 : Int) ≤ 1 ∧ (1 : Int) ≤ (q2.options.length : Int) :=
      ⟨le_refl _, by exact_mod_cast h2⟩
    simp [questionPart, hpi, hc2]
  show (List.map (questionPart ((jsSplitComma (jsTrim "2,1")).map jsTrim))
      (List.enum [q1, q2])).flatten ++ [KeyEvent.enter] = _
  rw [show (jsSplitComma (jsTrim "2,1")).map jsTrim = ["2", "1"] from rfl,
      show List.enum [q1, q2] = [(0, q1), (1, q2)] from rfl]
  rw [List.map_cons, List.map_cons, List.map_nil, e1, e2]
  rfl

/-- Witness for the amended C5 at the concrete two-question interaction. -/
theorem question_reply_encoding_amended_witness :
    sendInteractionKeystroke exTwoQuestionInteraction "2,1" =
      [KeyEvent.down, KeyEvent.tab, KeyEvent.sleep 100, KeyEvent.enter] :=
  question_reply_encoding_amended exTwoQuestionInteraction exQuestion1 exQuestion2
    rfl rfl (by decide) (by decide)

/-!  Claim C8 — shard growth selection. -/

/-- C8: when exactly one `.jsonl` shard's current line count exceeds its
snapshotted count, `detectActiveJsonlFile` selects that shard, with starting
offset equal to its snapshotted (pre-dispatch) count. -/
theorem shard_growth_selection (before : Snapshot) (d : Dir) (p0 : String)
    (ls0 : List Line) (n : Nat)
    (hmem : (p0, ls0) ∈ jsonlFiles d)
    (hsnap : List.lookup p0 before = some n)
    (hgrew : n < getFileLineCount d p0)
    (huniq : ∀ q ∈ jsonlFiles d,
      (List.lookup q.1 before).getD 0 < getFileLineCount d q.1 → q.1 = p0) :
    detectActiveJsonlFile before d = some (p0, n) := by
  have hp : grewB before d (p0, ls0) = true := by
    simp only [grewB, hsnap, Option.getD_some, decide_eq_true_eq]
    exact hgrew
  have hsome : ((jsonlFiles d).find? (grewB before d)).isSome := by
    rw [List.find?_isSome]
    exact ⟨(p0, ls0), hmem, hp⟩
  obtain ⟨e, he⟩ := Option.isSome_iff_exists.mp hsome
  have hpe : grewB before d e = true := List.find?_some he
  have hmeme : e ∈ jsonlFiles d := List.mem_of_find?_eq_some he
  have hfst : e.1 = p0 := by
    apply huniq e hmeme
    simpa [grewB, decide_eq_true_eq] using hpe
  unfold detectActiveJsonlFile
  rw [he]
  simp only [hfst, hsnap, Option.getD_some]

/-- Witness for C8: shard `a.jsonl` grew from 3 snapshotted lines to 5. -/
theorem shard_growth_selection_witness :
    detectActiveJsonlFile [("a.jsonl", 3)] [("a.jsonl", List.replicate 5 Line.malformed)] =
      some ("a.jsonl", 3) :=
  shard_growth_selection [("a.jsonl", 3)] [("a.jsonl", List.replicate 5 Line.malformed)]
    "a.jsonl" (List.replicate 5 Line.malformed) 3 (by decide) (by decide) (by decide)
    (by decide)

/-!  Claim C7 — brand-new shard selection. -/

/-- C7 counterexample: shard `b.jsonl` is absent from the snapshot, yet
because snapshotted shard `a.jsonl` also grew (3 → 5 lines) and is listed
first, `detectActiveJsonlFile` selects `a.jsonl` with offset 3, not the
brand-new shard with offset zero — refuting the claim that a brand-new
shard is selected even if snapshotted shards also grew. -/
theorem new_shard_selection_counterexample :
    detectActiveJsonlFile [("a.jsonl", 3)]
        [("a.jsonl", List.replicate 5 Line.malformed),
         ("b.jsonl", List.replicate 2 Line.malformed)] =
      some ("a.jsonl", 3) ∧
    List.lookup "b.jsonl" [("a.jsonl", (3 : Nat))] = none ∧
    ("b.jsonl", List.replicate 2 Line.malformed) ∈
      jsonlFiles [("a.jsonl", List.replicate 5 Line.malformed),
                  ("b.jsonl", List.replicate 2 Line.malformed)] ∧
    detectActiveJsonlFile [("a.jsonl", 3)]
        [("a.jsonl", List.replicate 5 Line.malformed),
         ("b.jsonl", List.replicate 2 Line.malformed)] ≠
      some ("b.jsonl", 0) := by
  decide

/-- C7 amended: when no `.jsonl` shard grew past its snapshotted count
(snapshot-absent shards counting from 0, so a nonempty new shard counts as
growth) and a shard absent from the snapshot exists, the snapshot-absent
shard is selected with starting offset zero. When some shard did grow, the
first grown shard is selected instead, so a brand-new shard is not
necessarily chosen when snapshotted shards also grew. -/
theorem new_shard_selection_amended (before : Snapshot) (d : Dir) (p0 : String)
    (ls0 : List Line)
    (hnogrow : ∀ q ∈ jsonlFiles d,
      getFileLineCount d q.1 ≤ (List.lookup q.1 before).getD 0)
    (hmem : (p0, ls0) ∈ jsonlFiles d)
    (habsent : List.lookup p0 before = none)
    (huniq : ∀ q ∈ jsonlFiles d, (List.lookup q.1 before).isNone → q.1 = p0) :
    detectActiveJsonlFile before d = some (p0, 0) := by
  have hnone : (jsonlFiles d).find? (grewB before d) = none := by
    rw [List.find?_eq_none]
    intro x hx
    simp only [grewB, decide_eq_true_eq, not_lt]
    exact hnogrow x hx
  have hp : isNewB before (p0, ls0) = true := by
    simp [isNewB, habsent]
  have hsome : ((jsonlFiles d).find? (isNewB before)).isSome := by
    rw [List.find?_isSome]
    exact ⟨(p0, ls0), hmem, hp⟩
  obtain ⟨e, he⟩ := Option.isSome_iff_exists.mp hsome
  have hpe : isNewB before e = true := List.find?_some he
  have hmeme : e ∈ jsonlFiles d := List.mem_of_find?_eq_some he
  have hfst : e.1 = p0 := huniq e hmeme hpe
  unfold detectActiveJsonlFile
  rw [hnone, he]
  simp only [hfst]

/-- Witness for the amended C7: `a.jsonl` did not grow and brand-new empty
shard `b.jsonl` is selected with offset zero. -/
theorem new_shard_selection_amended_witness :
    detectActiveJsonlFile [("a.jsonl", 3)]
        [("a.jsonl", List.replicate 3 Line.malformed), ("b.jsonl", [])] =
      some ("b.jsonl", 0) :=
  new_shard_selection_amended [("a.jsonl", 3)]
    [("a.jsonl", List.replicate 3 Line.malformed), ("b.jsonl", [])] "b.jsonl" []
    (by decide) (by decide) (by decide) (by decide)

/-!  Turn Waiter claims C1–C4. -/

/-- With an active file already known, a tick is exactly phase 2. -/
theorem tick_eq_tickActive (before : Snapshot) (plans : Plans) (d : Dir)
    (now startTime : Nat) (s : WaitState) (f : String)
    (hf : s.activeFile = some f) :
    tick before plans d now startTime s = tickActive before plans d now startTime f s := by
  unfold tick
  rw [hf]

/-- An assistant entry in the sample logs, with text `All systems nominal.`. -/
def exAssistantTextLine : Line :=
  .entry { type := "assistant", content := some [.text "All systems nominal."] }

/-- A `turn_duration` system entry. -/
def exTurnDurationLine : Line :=
  .entry { type := "system", subtype := some "turn_duration" }

/-- A `stop_hook_summary` system entry. -/
def exStopHookLine : Line :=
  .entry { type := "system", subtype := some "stop_hook_summary" }

/-- A wait state with active file `a.jsonl` and last growth at t = 1000. -/
def exWaitState : WaitState :=
  { activeFile := some "a.jsonl", startLine := 0, lastLineCount := 2, lastGrowthAt := 1000 }

/-- Sample pre-dispatch snapshot: `a.jsonl` had 0 lines. -/
def exSnap : Snapshot := [("a.jsonl", 0)]

/-- C1: if any new line is a `system` entry with subtype `turn_duration`,
the tick that observes it resolves the turn — with the last assistant text
or the no-text placeholder — regardless of how recently the file grew and
regardless of elapsed quiet time (no hypothesis constrains `lastGrowthAt`
or `now`). -/
theorem authoritative_marker_ends_turn (before : Snapshot) (plans : Plans)
    (d : Dir) (now startTime : Nat) (s : WaitState) (f : String) (e : Entry)
    (hf : s.activeFile = some f)
    (hmem : Line.entry e ∈ newLinesAfter before d now f s)
    (hsys : e.type = "system") (hsub : e.subtype = some "turn_duration") :
    tick before plans d now startTime s =
      .resolved
        ((extractLastAssistantText (newLinesAfter before d now f s)).getD noTextResp)
        none := by
  have hte : hasTurnEnded (newLinesAfter before d now f s) = true := by
    unfold hasTurnEnded
    rw [List.any_eq_true]
    exact ⟨Line.entry e, hmem, by simp [isTurnDurationLine, hsys, hsub]⟩
  rw [tick_eq_tickActive before plans d now startTime s f hf]
  unfold tickActive
  simp only [hte, if_true]

/-- Witness for C1 on the sample two-line log (`a.log` grows by an
assistant text line and the authoritative marker). -/
theorem authoritative_marker_ends_turn_witness :
    tick exSnap [] [("a.jsonl", [exAssistantTextLine, exTurnDurationLine])] 2000 0
        exWaitState =
      .resolved "All systems nominal." none :=
  (authoritative_marker_ends_turn exSnap []
      [("a.jsonl", [exAssistantTextLine, exTurnDurationLine])] 2000 0 exWaitState
      "a.jsonl" { type := "system", subtype := some "turn_duration" }
      rfl (by decide) rfl rfl).trans (by decide)

/-- Below the quiet threshold (and absent the authoritative marker and the
timeout), a tick keeps polling. -/
theorem tick_of_quiet_lt (before : Snapshot) (plans : Plans) (d : Dir)
    (now startTime : Nat) (s : WaitState) (f : String)
    (hf : s.activeFile = some f)
    (hnoTD : hasTurnEnded (newLinesAfter before d now f s) = false)
    (hnoTO : now - startTime ≤ RESPONSE_TIMEOUT)
    (hq : now - (stateAfter before d now f s).2.lastGrowthAt < INTERACTION_QUIET_THRESHOLD) :
    tick before plans d now startTime s = .continueWait (stateAfter before d now f s).2 := by
  rw [tick_eq_tickActive before plans d now startTime s f hf]
  unfold tickActive
  simp only [hnoTD, Bool.false_eq_true, if_false]
  have hqc : quietChecks plans now (stateAfter before d now f s).2
      (newLinesAfter before d now f s) = none := by
    unfold quietChecks
    rw [if_neg]
    rintro ⟨-, -, h3⟩
    omega
  rw [hqc]
  rw [if_neg]
  omega

/-- C2: when the most recent new line is a `system` entry with subtype
`stop_hook_summary` (and neither the authoritative marker nor the timeout
applies), a tick resolves the turn only if the elapsed quiet time since the
last observed growth reaches the quiet threshold; on any tick with quiet
time below the threshold the marker does not end the turn and polling
continues. -/
theorem weak_marker_needs_quiet (before : Snapshot) (plans : Plans) (d : Dir)
    (now startTime : Nat) (s : WaitState) (f : String) (e : Entry)
    (hf : s.activeFile = some f)
    (_hlast : (newLinesAfter before d now f s).getLast? = some (Line.entry e))
    (_hsys : e.type = "system") (_hsub : e.subtype = some "stop_hook_summary")
    (hnoTD : hasTurnEnded (newLinesAfter before d now f s) = false)
    (hnoTO : now - startTime ≤ RESPONSE_TIMEOUT) :
    (∀ r i, tick before plans d now startTime s = .resolved r i →
        INTERACTION_QUIET_THRESHOLD ≤ now - (stateAfter before d now f s).2.lastGrowthAt) ∧
    (now - (stateAfter before d now f s).2.lastGrowthAt < INTERACTION_QUIET_THRESHOLD →
        tick before plans d now startTime s = .continueWait (stateAfter before d now f s).2) := by
  constructor
  · intro r i hres
    by_contra hq
    push_neg at hq
    rw [tick_of_quiet_lt before plans d now startTime s f hf hnoTD hnoTO hq] at hres
    exact absurd hres (by simp)
  · intro hq
    exact tick_of_quiet_lt before plans d now startTime s f hf hnoTD hnoTO hq

/-- Witness for C2: the sample log's last entry is `stop_hook_summary`,
quiet time is 1000 ms < 5000 ms, and the tick keeps polling. -/
theorem weak_marker_needs_quiet_witness :
    tick exSnap [] [("a.jsonl", [exAssistantTextLine, exStopHookLine])] 2000 0
        exWaitState =
      .continueWait exWaitState :=
  ((weak_marker_needs_quiet exSnap []
      [("a.jsonl", [exAssistantTextLine, exStopHookLine])] 2000 0 exWaitState
      "a.jsonl" { type := "system", subtype := some "stop_hook_summary" }
      rfl (by decide) rfl rfl (by decide) (by decide)).2 (by decide)).trans (by decide)

/-- The `stop_hook_summary` fallback never stores an interaction. -/
theorem boundaryResolve_interaction (nl : List Line) (r : String)
    (i : Option PendingInteraction) (h : boundaryResolve nl = some (r, i)) :
    i = none := by
  unfold boundaryResolve at h
  split at h
  · split at h
    · simp only [Option.some.injEq, Prod.mk.injEq] at h
      exact h.2.symm
    · cases h
  · cases h

/-- Once a tool result answering the latest blocking invocation exists, the
quiet-gated checks can only resolve through the boundary fallback, never by
surfacing an interaction. -/
theorem quietChecks_answered (plans : Plans) (now : Nat) (st : WaitState)
    (nl : List Line) (idx : Nat) (r : String) (i : Option PendingInteraction)
    (hidx : findInteractionIndex nl = some idx)
    (hres : hasToolResult nl idx = true)
    (h : quietChecks plans now st nl = some (r, i)) : i = none := by
  unfold quietChecks at h
  split at h
  · rw [hidx] at h
    simp only [hres, if_true] at h
    exact boundaryResolve_interaction nl r i h
  · cases h

/-- C3: if the latest blocking invocation among the new lines is answered by
a later `user` entry carrying a `tool_result` block, no tick surfaces a
pending interaction. -/
theorem answered_interaction_not_resurfaced (before : Snapshot) (plans : Plans)
    (d : Dir) (now startTime : Nat) (s : WaitState) (f : String) (idx : Nat)
    (hf : s.activeFile = some f)
    (hidx : findInteractionIndex (newLinesAfter before d now f s) = some idx)
    (hres : hasToolResult (newLinesAfter before d now f s) idx = true) :
    (tick before plans d now startTime s).surfaced = none := by
  rw [tick_eq_tickActive before plans d now startTime s f hf]
  unfold tickActive
  cases hte : hasTurnEnded (newLinesAfter before d now f s) with
  | true => simp [hte, TickResult.surfaced]
  | false =>
    simp only [hte, Bool.false_eq_true, if_false]
    cases hqc : quietChecks plans now (stateAfter before d now f s).2
        (newLinesAfter before d now f s) with
    | none =>
      simp only [hqc]
      split <;> rfl
    | some ri =>
      have hri : ri.2 = none :=
        quietChecks_answered plans now (stateAfter before d now f s).2
          (newLinesAfter before d now f s) idx ri.1 ri.2 hidx hres
          (by rw [hqc])
      simp [hqc, TickResult.surfaced, hri]

/-- An assistant entry invoking `AskUserQuestion`. -/
def exAskLine : Line :=
  .entry { type := "assistant", content := some [.toolUse "AskUserQuestion" [exQuestion1]] }

/-- A `user` entry carrying a `tool_result` block. -/
def exToolResultLine : Line :=
  .entry { type := "user", content := some [.toolResult] }

/-- Witness for C3: the question invocation at index 0 is answered by the
tool result at index 1, and the tick (quiet for 98 s) surfaces nothing. -/
theorem answered_interaction_not_resurfaced_witness :
    (tick exSnap [] [("a.jsonl", [exAskLine, exToolResultLine])] 99000 0
        exWaitState).surfaced = none :=
  answered_interaction_not_resurfaced exSnap []
    [("a.jsonl", [exAskLine, exToolResultLine])] 99000 0 exWaitState "a.jsonl" 0
    rfl (by decide) (by decide)

/-- A blank-line join of nonempty strings is nonempty. -/
theorem joinBlocks_ne_empty (l : List String) (hne : l ≠ [])
    (h : ∀ x ∈ l, x ≠ "") : joinBlocks l ≠ "" := by
  cases l with
  | nil => exact absurd rfl hne
  | cons s tail =>
    cases tail with
    | nil => exact h s (by simp)
    | cons t rest =>
      intro hcontra
      have hlen := congrArg String.length hcontra
      rw [show joinBlocks (s :: t :: rest) = s ++ "\n\n" ++ joinBlocks (t :: rest) from rfl,
          String.length_append, String.length_append] at hlen
      have h2 : ("\n\n" : String).length = 2 := rfl
      have h0 : ("" : String).length = 0 := rfl
      omega

/-- Every extracted text block is nonempty (it survived the
`b.text?.trim()` truthiness filter). -/
theorem textBlocksOf_ne_empty (bs : List Block) (x : String)
    (hx : x ∈ textBlocksOf bs) : x ≠ "" := by
  unfold textBlocksOf at hx
  rw [List.mem_filterMap] at hx
  obtain ⟨b, hb, hbx⟩ := hx
  cases b with
  | text s =>
    simp only at hbx
    split at hbx
    · cases hbx
    · next hne =>
      cases hbx
      exact hne
  | toolUse n qs => cases hbx
  | toolResult => cases hbx
  | other => cases hbx

/-- The backward text scan never returns the empty string. -/
theorem extractGo_ne_empty (l : List Line) (t : String)
    (h : extractGo l = some t) : t ≠ "" := by
  induction l with
  | nil => cases h
  | cons hd tl ih =>
    cases hd with
    | blank => exact ih (by simpa [extractGo] using h)
    | malformed => exact ih (by simpa [extractGo] using h)
    | entry e =>
      simp only [extractGo] at h
      split at h
      · split at h
        · split at h
          · exact ih h
          · next hne =>
            cases h
            exact joinBlocks_ne_empty _ hne (fun x hx => textBlocksOf_ne_empty _ x hx)
        · exact ih h
      · exact ih h

/-- Function `extractLastAssistantText` never returns the empty string. -/
theorem extractLastAssistantText_ne_empty (nl : List Line) (t : String)
    (h : extractLastAssistantText nl = some t) : t ≠ "" :=
  extractGo_ne_empty nl.reverse t h

/-- The boundary fallback only resolves with the extracted assistant text. -/
theorem boundaryResolve_text (nl : List Line) (r : String)
    (i : Option PendingInteraction) (h : boundaryResolve nl = some (r, i)) :
    extractLastAssistantText nl = some r := by
  unfold boundaryResolve at h
  split at h
  · split at h
    · next heq =>
      simp only [Option.some.injEq, Prod.mk.injEq] at h
      rw [heq, h.1]
    · cases h
  · cases h

/-- Splitting an `Option.getD`: the value is either the payload or the
default with the option empty. -/
theorem getD_cases (o : Option String) (dflt r : String) (h : o.getD dflt = r) :
    (∃ t, o = some t ∧ r = t) ∨ (o = none ∧ r = dflt) := by
  cases o with
  | some t => exact Or.inl ⟨t, rfl, h.symm⟩
  | none => exact Or.inr ⟨rfl, h.symm⟩

/-- A quiet-gated resolution that stores no interaction comes from the
boundary fallback, hence carries the extracted assistant text. -/
theorem quietChecks_resolved_text (plans : Plans) (now : Nat) (st : WaitState)
    (nl : List Line) (r : String)
    (h : quietChecks plans now st nl = some (r, none)) :
    extractLastAssistantText nl = some r := by
  unfold quietChecks at h
  split at h
  · split at h
    · split at h
      · exact boundaryResolve_text nl r none h
      · split at h
        · simp only [Option.some.injEq, Prod.mk.injEq] at h
          cases h.2
        · exact boundaryResolve_text nl r none h
    · exact boundaryResolve_text nl r none h
  · cases h

/-- C4: whenever a tick ends the turn through any of the three boundary
tiers (`resolved` with no interaction stored), the returned response is the
blank-line-joined text of the most recent assistant entry with nonempty
text among the new lines, or — only when no such entry exists — one of the
two nonempty sentinel placeholders, and is never the empty string. -/
theorem response_text_extraction (before : Snapshot) (plans : Plans) (d : Dir)
    (now startTime : Nat) (s : WaitState) (f : String) (r : String)
    (hf : s.activeFile = some f)
    (hres : tick before plans d now startTime s = .resolved r none) :
    r ≠ "" ∧
      ((∃ t, extractLastAssistantText (newLinesAfter before d now f s) = some t ∧ r = t) ∨
        (extractLastAssistantText (newLinesAfter before d now f s) = none ∧
          (r = noTextResp ∨ r = timeoutActiveResp))) := by
  rw [tick_eq_tickActive before plans d now startTime s f hf] at hres
  unfold tickActive at hres
  split at hres
  · injection hres with h1 h2
    rcases getD_cases _ _ _ h1 with ⟨t, hext, hrt⟩ | ⟨hext, hrd⟩
    · exact ⟨by rw [hrt]; exact extractLastAssistantText_ne_empty _ t hext,
        Or.inl ⟨t, hext, hrt⟩⟩
    · exact ⟨by rw [hrd]; decide, Or.inr ⟨hext, Or.inl hrd⟩⟩
  · split at hres
    · next ri heq =>
      obtain ⟨r1, i1⟩ := ri
      injection hres with h1 h2
      subst h2
      have h1' : r1 = r := h1
      rw [h1'] at heq
      have hext := quietChecks_resolved_text plans now (stateAfter before d now f s).2
        (newLinesAfter before d now f s) r heq
      exact ⟨extractLastAssistantText_ne_empty _ r hext, Or.inl ⟨r, hext, rfl⟩⟩
    · split at hres
      · injection hres with h1 h2
        rcases getD_cases _ _ _ h1 with ⟨t, hext, hrt⟩ | ⟨hext, hrd⟩
        · exact ⟨by rw [hrt]; exact extractLastAssistantText_ne_empty _ t hext,
            Or.inl ⟨t, hext, hrt⟩⟩
        · exact ⟨by rw [hrd]; decide, Or.inr ⟨hext, Or.inr hrd⟩⟩
      · cases hres

/-- Witness for C4 on the sample turn-end log: the response is the
assistant text and not empty. -/
theorem response_text_extraction_witness :
    "All systems nominal." ≠ "" ∧
      ((∃ t, extractLastAssistantText
            (newLinesAfter exSnap [("a.jsonl", [exAssistantTextLine, exTurnDurationLine])]
              2000 "a.jsonl" exWaitState) = some t ∧ "All systems nominal." = t) ∨
        (extractLastAssistantText
            (newLinesAfter exSnap [("a.jsonl", [exAssistantTextLine, exTurnDurationLine])]
              2000 "a.jsonl" exWaitState) = none ∧
          ("All systems nominal." = noTextResp ∨ "All systems nominal." = timeoutActiveResp))) :=
  response_text_extraction exSnap [] [("a.jsonl", [exAssistantTextLine, exTurnDurationLine])]
    2000 0 exWaitState "a.jsonl" "All systems nominal." rfl (by decide)

/-!  Queue Coordinator claims C9–C10. -/

/-- Erasing the freshly appended in-progress entry restores the area. -/
theorem processing_append_erase (l : List String) (a : String) (ha : a ∉ l) :
    (l ++ [a]).erase a = l := by
  rw [List.erase_append_right [a] ha, List.erase_cons_head, List.append_nil]

/-- A coordinator state with one queued message and no pending interaction. -/
def exCoordState : CoordState :=
  { incoming := ["m1.json"], processing := [], outgoing := [], pending := none }

/-- A wait state before any active file has been detected. -/
def exIdleWaitState : WaitState :=
  { activeFile := none, startLine := 0, lastLineCount := 0, lastGrowthAt := 0 }

/-- C9: an exception raised after relocation (reading the message,
dispatch injection, or the wait) is caught — the message returns to the
holding area, leaves the in-progress area, no artifact is written, and
`processMessage` returns (the outer loop continues); whereas a clean
timeout is not an error: a timed-out tick resolves with the timeout
placeholder (last conjunct), and the success path writes it as the response
artifact, deletes the in-progress file and never restores the message to
holding. -/
theorem failure_and_timeout_semantics (before : Snapshot) (plans : Plans)
    (d : Dir) (now startTime : Nat) (s : WaitState) (st : CoordState)
    (msgFile artifact : String)
    (hproc : msgFile ∉ st.processing) (hcount : st.incoming.count msgFile = 1) :
    (∀ fp, (fp = FailPoint.atRead ∨ fp = FailPoint.atDispatch ∨ fp = FailPoint.atWait) →
      (processMessage fp timeoutNoActivityResp msgFile artifact st).threw = true ∧
      msgFile ∈ (processMessage fp timeoutNoActivityResp msgFile artifact st).state.incoming ∧
      msgFile ∉ (processMessage fp timeoutNoActivityResp msgFile artifact st).state.processing ∧
      (processMessage fp timeoutNoActivityResp msgFile artifact st).state.outgoing
        = st.outgoing) ∧
    ((processMessage .noFail timeoutNoActivityResp msgFile artifact st).threw = false ∧
      (processMessage .noFail timeoutNoActivityResp msgFile artifact st).state.outgoing
        = st.outgoing ++ [(artifact, timeoutNoActivityResp)] ∧
      msgFile ∉ (processMessage .noFail timeoutNoActivityResp msgFile artifact st).state.processing ∧
      msgFile ∉ (processMessage .noFail timeoutNoActivityResp msgFile artifact st).state.incoming) ∧
    (s.activeFile = none → detectActiveJsonlFile before d = none →
      RESPONSE_TIMEOUT < now - startTime →
      tick before plans d now startTime s = .resolved timeoutNoActivityResp none) := by
  have hkey : (st.processing ++ [msgFile]).erase msgFile = st.processing :=
    processing_append_erase st.processing msgFile hproc
  refine ⟨?_, ⟨?_, ?_, ?_, ?_⟩, ?_⟩
  · intro fp hfp
    rcases hfp with h | h | h <;> subst h <;>
      refine ⟨by simp [processMessage], ?_, ?_, by simp [processMessage, restoreToIncoming]⟩ <;>
      simp [processMessage, restoreToIncoming, hkey, hproc]
  · simp [processMessage]
  · simp [processMessage]
  · simp [processMessage, hkey]
    exact hproc
  · simp only [processMessage]
    simp only [reduceCtorEq, if_false]
    rw [← List.count_eq_zero, List.count_erase_self, hcount]
  · intro h1 h2 h3
    unfold tick
    rw [h1, h2]
    simp only [if_pos h3]

/-- Witness for C9: with one queued message, a wait-time exception restores
it, a clean timeout writes the placeholder artifact without restoring, and
an idle tick past the deadline resolves with the placeholder. -/
theorem failure_and_timeout_semantics_witness :
    (processMessage .atWait timeoutNoActivityResp "m1.json" "out.json" exCoordState).threw
      = true ∧
    "m1.json" ∈ (processMessage .atWait timeoutNoActivityResp "m1.json" "out.json"
      exCoordState).state.incoming ∧
    "m1.json" ∉ (processMessage .atWait timeoutNoActivityResp "m1.json" "out.json"
      exCoordState).state.processing ∧
    (processMessage .noFail timeoutNoActivityResp "m1.json" "out.json" exCoordState).state.outgoing
      = [("out.json", timeoutNoActivityResp)] ∧
    "m1.json" ∉ (processMessage .noFail timeoutNoActivityResp "m1.json" "out.json"
      exCoordState).state.incoming ∧
    tick [] [] [] 10800001 0 exIdleWaitState = .resolved timeoutNoActivityResp none := by
  obtain ⟨h1, h2, h3⟩ := failure_and_timeout_semantics [] [] [] 10800001 0 exIdleWaitState
    exCoordState "m1.json" "out.json" (by decide) (by decide)
  obtain ⟨ha, hb, hc, _⟩ := h1 .atWait (Or.inr (Or.inr rfl))
  exact ⟨ha, hb, hc, h2.2.1, h2.2.2.2, h3 rfl rfl (by decide)⟩

/-- A coordinator state with one queued message and a stored interaction. -/
def exPendingCoordState : CoordState :=
  { incoming := ["m1.json"], processing := [], outgoing := [],
    pending := some exPlanInteraction }

/-- C10 counterexample: with a stored pending interaction, a throw while
reading the relocated message is caught before the slot is consulted, so
`processMessage` returns with the slot still set — refuting "the slot is
null after processMessage returns whether it succeeds or throws". -/
theorem pending_slot_counterexample :
    (processMessage .atRead "r" "m1.json" "out.json" exPendingCoordState).threw = true ∧
    (processMessage .atRead "r" "m1.json" "out.json" exPendingCoordState).state.pending
      = some exPlanInteraction := by
  decide

/-- C10 amended: `processMessage` clears the pending-interaction slot
before any keystroke of the reply is injected, so after any run that
reaches the dispatch step — succeeding or throwing during or after
injection — the slot is null, the stored interaction is consumed as the
dispatch mode of a successful run, and when reply injection throws the
restored message is dispatched on retry as a fresh prompt; only a throw
before the slot is consulted (relocation or message read) leaves it
unchanged. -/
theorem pending_slot_cleared_amended (st : CoordState) (i : PendingInteraction)
    (w w2 msgFile artifact : String) (hp : st.pending = some i) :
    (∀ fp, fp ≠ FailPoint.atRename → fp ≠ FailPoint.atRead →
      (processMessage fp w msgFile artifact st).state.pending = none) ∧
    (processMessage .noFail w msgFile artifact st).dispatched
      = some DispatchMode.interactionReply ∧
    (processMessage .atDispatch w msgFile artifact st).state.pending = none ∧
    msgFile ∈ (processMessage .atDispatch w msgFile artifact st).state.incoming ∧
    (processMessage .noFail w2 msgFile artifact
        (processMessage .atDispatch w msgFile artifact st).state).dispatched
      = some DispatchMode.freshPrompt := by
  refine ⟨?_, ?_, ?_, ?_, ?_⟩
  · intro fp h1 h2
    cases fp with
    | atRename => exact absurd rfl h1
    | atRead => exact absurd rfl h2
    | atDispatch => simp [processMessage, restoreToIncoming]
    | atWait => simp [processMessage, restoreToIncoming]
    | atWrite => simp [processMessage, restoreToIncoming]
    | noFail => simp [processMessage]
  · simp [processMessage, hp]
  · simp [processMessage, restoreToIncoming]
  · simp [processMessage, restoreToIncoming]
  · simp [processMessage, restoreToIncoming]

/-- Witness for the amended C10 at a stored plan interaction. -/
theorem pending_slot_cleared_amended_witness :
    (processMessage .atWait "r" "m1.json" "out.json" exPendingCoordState).state.pending
      = none ∧
    (processMessage .noFail "r" "m1.json" "out.json" exPendingCoordState).dispatched
      = some DispatchMode.interactionReply ∧
    (processMessage .noFail "r2" "m1.json" "out.json"
        (processMessage .atDispatch "r" "m1.json" "out.json"
          exPendingCoordState).state).dispatched
      = some DispatchMode.freshPrompt := by
  obtain ⟨h1, h2, h3, h4, h5⟩ := pending_slot_cleared_amended exPendingCoordState
    exPlanInteraction "r" "r2" "m1.json" "out.json" rfl
  exact ⟨h1 .atWait (by decide) (by decide), h2, h5⟩

end Tinyclaw
